import Mathlib

/-!
Verification of the session-scoped conversation core of the Chatbot-Sentiment
repository: the SQL safety gate and safe execution path (`database.py`), the
session store (`memory.py`) and the conversation orchestrator
(`openai_handler.py`), shallowly embedded in Lean.

Python strings are modelled as `List Char`; Python dicts keyed by session id
as association lists with unique keys (insertion order preserved, as in
CPython); timestamps as `Int` (seconds); the external OpenAI model calls and
the PostgreSQL store as oracle parameters.  Fallible operations (`del` on a
missing key) return `Option`/`Except`.
-/

set_option maxRecDepth 8192

namespace ChatbotSentiment

/-! ## Python string helpers -/

/-- Upper-casing of a character, as Python `str.upper` acts on ASCII text. -/
def pyUpperChar (c : Char) : Char := c.toUpper

/-- Upper-casing of a string (`sql.upper()`). -/
def pyUpper (s : List Char) : List Char := s.map pyUpperChar

/-- Whitespace characters removed by Python `str.strip()` (ASCII range). -/
def isPySpace (c : Char) : Bool :=
  c = ' ' || c = '\t' || c = '\n' || c = '\r' || c = Char.ofNat 11 || c = Char.ofNat 12

/-- Python `str.strip()`: drop whitespace from both ends. -/
def pyStrip (s : List Char) : List Char :=
  ((s.dropWhile isPySpace).reverse.dropWhile isPySpace).reverse

/-- Python slice `l[-k:]` for a non-negative `k`: the most recent `k`
elements, except that `l[-0:]` is the whole list. -/
def pySliceLast (k : Nat) (l : List α) : List α :=
  if k = 0 then l else l.drop (l.length - k)

/-! ## Safety gate (`database.py`, `validate_sql_safety`) -/

/-- The deny-listed keywords of `validate_sql_safety`. -/
def dangerous_keywords : List (List Char) :=
  ["DROP".data, "DELETE".data, "INSERT".data, "UPDATE".data, "CREATE".data,
   "ALTER".data, "TRUNCATE".data, "GRANT".data, "REVOKE".data, "EXEC".data,
   "EXECUTE".data]

/-- `DatabaseManager.validate_sql_safety`: normalise by `upper().strip()`,
reject on any deny-listed substring, then require a `SELECT`/`WITH` start. -/
def validate_sql_safety (sql : List Char) : Bool :=
  if dangerous_keywords.any (fun kw => decide (kw <:+: pyStrip (pyUpper sql))) then false
  else if !("SELECT".data.isPrefixOf (pyStrip (pyUpper sql)))
      && !("WITH".data.isPrefixOf (pyStrip (pyUpper sql))) then false
  else true

/-! ## Query executor (`database.py`, `execute_query` / `execute_safe_query`)

The physical store is an oracle `store : List Char → StoreResult` giving, for
each statement text, either its rows or the error the driver raises.
-/

/-- One result row: a mapping from column name to (rendered) value. -/
structure Row where
  fields : List (List Char × List Char)
deriving DecidableEq

/-- The single exception class `DatabaseError(msg)` of `database.py`. -/
structure DatabaseError where
  msg : List Char
deriving DecidableEq

/-- Outcome of handing a statement to the underlying store: a result set, a
driver (`psycopg2`) error with its message, or any other exception. -/
inductive StoreResult where
  | rows (rs : List Row)
  | pgError (cause : List Char)
  | otherError (cause : List Char)

/-- `DatabaseManager.execute_query`: run the statement, wrap any driver or
unexpected error into a `DatabaseError` with the corresponding message. -/
def execute_query (store : List Char → StoreResult) (sql : List Char) :
    Except DatabaseError (List Row) :=
  match store sql with
  | .rows rs => .ok rs
  | .pgError c => .error ⟨"Database query failed: ".data ++ c⟩
  | .otherError c => .error ⟨"Unexpected database error: ".data ++ c⟩

/-- The message of the rejection error raised by `execute_safe_query`. -/
def rejectedError : DatabaseError := ⟨"SQL query failed safety validation".data⟩

/-- `DatabaseManager.execute_safe_query`: validate, then execute.  The second
component instruments the call with the list of statements actually handed to
the store (empty when validation fails, since `execute_query` is never
reached). -/
def execute_safe_query (store : List Char → StoreResult) (sql : List Char) :
    Except DatabaseError (List Row) × List (List Char) :=
  if validate_sql_safety sql then (execute_query store sql, [sql])
  else (.error rejectedError, [])

/-! ## Session store (`memory.py`) -/

/-- The optional metadata dict of a stored message: the keys `sql_query` and
`sql_results`, each present or absent. -/
structure Metadata where
  sql_query : Option (List Char)
  sql_results : Option (List Row)
deriving DecidableEq

/-- The empty metadata dict `{}`. -/
def emptyMeta : Metadata := ⟨none, none⟩

/-- One stored message, as built by `MemoryManager.add_message`. -/
structure Msg where
  role : List Char
  content : List Char
  timestamp : Int
  metadata : Metadata
deriving DecidableEq

/-- Lookup in a Python dict modelled as an association list with unique keys. -/
def dlookup (k : List Char) : List (List Char × α) → Option α
  | [] => none
  | (k2, v) :: rest => if k2 = k then some v else dlookup k rest

/-- `d[k] = v` on a Python dict: replace in place if the key is present
(keeping its position, as CPython does), otherwise add at the end. -/
def dinsert (k : List Char) (v : α) : List (List Char × α) → List (List Char × α)
  | [] => [(k, v)]
  | (k2, v2) :: rest => if k2 = k then (k2, v) :: rest else (k2, v2) :: dinsert k v rest

/-- `del d[k]` on a Python dict: `none` models the `KeyError` raised when the
key is absent. -/
def ddelete (k : List Char) : List (List Char × α) → Option (List (List Char × α))
  | [] => none
  | (k2, v2) :: rest =>
    if k2 = k then some rest else (ddelete k rest).map (fun d => (k2, v2) :: d)

/-- `k in d` on a Python dict. -/
def dmem (k : List Char) (d : List (List Char × α)) : Bool :=
  d.any (fun p => p.1 = k)

/-- The state of a `MemoryManager`: the `sessions` and `session_timestamps`
dicts and the `max_messages` bound (default 20). -/
structure MemoryManager where
  sessions : List (List Char × List Msg)
  session_timestamps : List (List Char × Int)
  max_messages : Nat
deriving DecidableEq

/-- The trim step of `add_message`: append, then if the list exceeds
`max_messages` keep `l[-max_messages:]`. -/
def trimAppend (maxM : Nat) (l : List Msg) (m : Msg) : List Msg :=
  if maxM < (l ++ [m]).length then pySliceLast maxM (l ++ [m]) else l ++ [m]

/-- `MemoryManager.add_message`: create the session lazily, append the new
message, update `session_timestamps`, trim to the most recent
`max_messages`.  `now` stands for `datetime.now()` during the call. -/
def MemoryManager.add_message (mm : MemoryManager) (session_id role content : List Char)
    (metadata : Metadata) (now : Int) : MemoryManager :=
  let cur := (dlookup session_id mm.sessions).getD []
  ⟨dinsert session_id (trimAppend mm.max_messages cur ⟨role, content, now, metadata⟩) mm.sessions,
   dinsert session_id now mm.session_timestamps,
   mm.max_messages⟩

/-- `MemoryManager.get_conversation_history`: the stored messages (most recent
`limit` of them when `limit` is truthy — `None` and `0` are falsy), reduced to
`(role, content)` pairs. -/
def MemoryManager.get_conversation_history (mm : MemoryManager) (session_id : List Char)
    (limit : Option Nat) : List (List Char × List Char) :=
  match dlookup session_id mm.sessions with
  | none => []
  | some messages =>
    (match limit with
     | none => messages
     | some k => if k = 0 then messages else pySliceLast k messages).map
      (fun (msg : Msg) => (msg.role, msg.content))

/-- The reversed scan of `get_last_sql_query`: the first message (from the
most recent end) with a truthy `metadata.sql_query`. -/
def lastQueryScan : List Msg → Option (List Char)
  | [] => none
  | m :: rest =>
    match m.metadata.sql_query with
    | some q => if q.isEmpty then lastQueryScan rest else some q
    | none => lastQueryScan rest

/-- `MemoryManager.get_last_sql_query`. -/
def MemoryManager.get_last_sql_query (mm : MemoryManager) (session_id : List Char) :
    Option (List Char) :=
  match dlookup session_id mm.sessions with
  | none => none
  | some msgs => lastQueryScan msgs.reverse

/-- The reversed scan of `get_last_sql_results`: the first message (from the
most recent end) with a truthy `metadata.sql_results`. -/
def lastResultsScan : List Msg → Option (List Row)
  | [] => none
  | m :: rest =>
    match m.metadata.sql_results with
    | some rs => if rs.isEmpty then lastResultsScan rest else some rs
    | none => lastResultsScan rest

/-- `MemoryManager.get_last_sql_results`. -/
def MemoryManager.get_last_sql_results (mm : MemoryManager) (session_id : List Char) :
    Option (List Row) :=
  match dlookup session_id mm.sessions with
  | none => none
  | some msgs => lastResultsScan msgs.reverse

/-- One iteration of the removal loop of `cleanup_old_sessions`:
`del self.sessions[sid]; del self.session_timestamps[sid]`, either of which
raises `KeyError` when the key is absent. -/
def delSession (mm : MemoryManager) (session_id : List Char) :
    Except (List Char) MemoryManager :=
  match ddelete session_id mm.sessions with
  | none => .error ("KeyError: ".data ++ session_id)
  | some s2 =>
    match ddelete session_id mm.session_timestamps with
    | none => .error ("KeyError: ".data ++ session_id)
    | some t2 => .ok ⟨s2, t2, mm.max_messages⟩

/-- `MemoryManager.cleanup_old_sessions`: collect every session id whose
timestamp precedes `now - hours`, then delete each from both dicts. -/
def MemoryManager.cleanup_old_sessions (mm : MemoryManager) (hours : Nat) (now : Int) :
    Except (List Char) MemoryManager :=
  let cutoff : Int := now - (hours : Int) * 3600
  let sessions_to_remove :=
    (mm.session_timestamps.filter (fun p => p.2 < cutoff)).map (fun p => p.1)
  sessions_to_remove.foldlM delSession mm

/-- `MemoryManager.clear_session`: remove the session list if present.  The
`session_timestamps` entry is left untouched, as in the source. -/
def MemoryManager.clear_session (mm : MemoryManager) (session_id : List Char) :
    MemoryManager :=
  if dmem session_id mm.sessions then
    match ddelete session_id mm.sessions with
    | some s2 => ⟨s2, mm.session_timestamps, mm.max_messages⟩
    | none => mm
  else mm

/-- Module-level `add_user_message`: a `user` message with no metadata. -/
def add_user_message (mm : MemoryManager) (session_id content : List Char) (now : Int) :
    MemoryManager :=
  mm.add_message session_id "user".data content emptyMeta now

/-- Truthiness of the optional `sql_query` argument (`if sql_query:`):
neither `None` nor the empty string. -/
def truthyStr : Option (List Char) → Bool
  | none => false
  | some l => !l.isEmpty

/-- Truthiness of the optional `sql_results` argument (`if sql_results:`):
neither `None` nor the empty list. -/
def truthyRows : Option (List Row) → Bool
  | none => false
  | some l => !l.isEmpty

/-- The metadata dict built by `add_assistant_message`: each key is stored
only when its argument is truthy. -/
def mkMeta (sql_query : Option (List Char)) (sql_results : Option (List Row)) : Metadata :=
  ⟨if truthyStr sql_query then sql_query else none,
   if truthyRows sql_results then sql_results else none⟩

/-- Module-level `add_assistant_message`: an `assistant` message whose
metadata carries `sql_query` / `sql_results` only when truthy. -/
def add_assistant_message (mm : MemoryManager) (session_id content : List Char)
    (sql_query : Option (List Char)) (sql_results : Option (List Row)) (now : Int) :
    MemoryManager :=
  mm.add_message session_id "assistant".data content (mkMeta sql_query sql_results) now

/-! ## Conversation orchestrator (`openai_handler.py`)

The first OpenAI chat-completions call is an oracle `FirstCall`: it may raise,
return plain content (possibly `None`), or return a tool call whose parsed
JSON arguments provide optional `query` and `message` fields.  The follow-up
formatting call of `_get_formatted_response` is an oracle `FormatCall`.
-/

/-- Outcome of the first model call in `process_message`. -/
inductive FirstCall where
  | raises (err : List Char)
  | content (c : Option (List Char))
  | toolCall (name : List Char) (query : Option (List Char)) (message : Option (List Char))

/-- Outcome of the formatting model call in `_get_formatted_response`. -/
inductive FormatCall where
  | ok (c : Option (List Char))
  | raises

/-- The `{response, type, debug}` dict returned by `process_message`. -/
structure PMResult where
  response : List Char
  rtype : List Char
  debug_sql_query : Option (List Char)
  debug_sql_results : Option (List Row)
  debug_error : Option (List Char)
deriving DecidableEq

/-- Rendering of one row in the local fallback formatter (stands in for the
`json.dumps` rendering, whose exact text no property depends on). -/
def renderRow (r : Row) : List Char :=
  r.fields.foldr (fun p acc => p.1 ++ ": ".data ++ p.2 ++ "; ".data ++ acc) []

/-- Rendering of a row list preview in the local fallback formatter. -/
def renderRows (rs : List Row) : List Char :=
  rs.foldr (fun r acc => renderRow r ++ "| ".data ++ acc) []

/-- The local deterministic fallback of `_get_formatted_response`: empty row
set, single-row-single-column value, or count plus preview of three rows. -/
def fallbackFormat : List Row → List Char
  | [] => "No matching results found.".data
  | [⟨[(_, v)]⟩] => "Result: ".data ++ v
  | rows => "Found ".data ++ (Nat.repr rows.length).data ++ " results. ".data
      ++ renderRows (rows.take 3)

/-- `_get_formatted_response`: the formatting model call, its `None`-content
default, and the local fallback when the call raises.  (The source text of
the default contains an apostrophe, elided here.) -/
def get_formatted_response (format_call : FormatCall) (sql_results : List Row) : List Char :=
  match format_call with
  | .ok c => c.getD "I couldnt format the results properly.".data
  | .raises => fallbackFormat sql_results

/-- `_execute_sql_function`: run the safe execution path, format and store on
success, or store a message embedding the `DatabaseError` text on failure. -/
def execute_sql_function (store : List Char → StoreResult) (format_call : FormatCall)
    (mm : MemoryManager) (session_id : List Char) (query_arg : Option (List Char))
    (now : Int) : PMResult × MemoryManager :=
  match (execute_safe_query store (query_arg.getD [])).1 with
  | .ok sql_results =>
    (⟨get_formatted_response format_call sql_results, "sql_analysis".data,
        some (query_arg.getD []), some sql_results, none⟩,
     add_assistant_message mm session_id (get_formatted_response format_call sql_results)
       (some (query_arg.getD [])) (some sql_results) now)
  | .error e =>
    (⟨"I encountered a database error: ".data ++ e.msg, "database_error".data,
        some (query_arg.getD []), none, some e.msg⟩,
     add_assistant_message mm session_id ("I encountered a database error: ".data ++ e.msg)
       none none now)

/-- `_respond_directly_function`: append the message and return it with type
`conversational`. -/
def respond_directly_function (mm : MemoryManager) (session_id : List Char)
    (message_arg : Option (List Char)) (now : Int) : PMResult × MemoryManager :=
  (⟨message_arg.getD [], "conversational".data, none, none, none⟩,
   add_assistant_message mm session_id (message_arg.getD []) none none now)

/-- `_handle_function_call`: dispatch on the called function name. -/
def handle_function_call (store : List Char → StoreResult) (format_call : FormatCall)
    (mm : MemoryManager) (session_id : List Char) (function_name : List Char)
    (query_arg message_arg : Option (List Char)) (now : Int) : PMResult × MemoryManager :=
  if function_name = "execute_sql".data then
    execute_sql_function store format_call mm session_id query_arg now
  else if function_name = "respond_directly".data then
    respond_directly_function mm session_id message_arg now
  else
    (⟨"I encountered an unexpected error. Please try again.".data, "error".data, none, none,
        some ("Unknown function: ".data ++ function_name)⟩,
     add_assistant_message mm session_id
       "I encountered an unexpected error. Please try again.".data none none now)

/-- `process_message`: append the user message, consult the model oracle, and
dispatch — direct content (with its `None`-content default, whose source text
contains an apostrophe, elided here), a tool call, or the top-level exception
handler.  The whole turn is modelled at one logical time `now`. -/
def process_message (first_call : FirstCall) (store : List Char → StoreResult)
    (format_call : FormatCall) (mm : MemoryManager) (user_message session_id : List Char)
    (now : Int) : PMResult × MemoryManager :=
  match first_call with
  | .raises e =>
    (⟨"Sorry, I encountered an error processing your request. Please try again.".data,
        "error".data, none, none, some e⟩,
     add_assistant_message (add_user_message mm session_id user_message now) session_id
       "Sorry, I encountered an error processing your request. Please try again.".data
       none none now)
  | .content c =>
    (⟨c.getD "I didnt quite understand that. Could you try rephrasing?".data,
        "direct".data, none, none, none⟩,
     add_assistant_message (add_user_message mm session_id user_message now) session_id
       (c.getD "I didnt quite understand that. Could you try rephrasing?".data) none none now)
  | .toolCall name query_arg message_arg =>
    handle_function_call store format_call (add_user_message mm session_id user_message now)
      session_id name query_arg message_arg now

/-! ## Lemmas about the safety gate -/

/-- A nonempty keyword of non-whitespace characters survives `dropWhile` of
whitespace: it still occurs as a substring. -/
theorem kw_in_dropWhile {p : Char → Bool} {kw l : List Char} (hne : kw ≠ [])
    (hall : ∀ c ∈ kw, p c = false) (h : kw <:+: l) : kw <:+: l.dropWhile p := by
  induction l with
  | nil =>
    simp only [List.infix_nil] at h
    exact absurd h hne
  | cons c rest ih =>
    by_cases hc : p c
    · rw [List.dropWhile_cons, if_pos hc]
      rcases List.infix_cons_iff.mp h with hpre | hinf
      · cases kw with
        | nil => exact absurd rfl hne
        | cons k0 ktl =>
          obtain ⟨t, ht⟩ := hpre
          rw [List.cons_append] at ht
          have hk0 : k0 = c := (List.cons.injEq _ _ _ _ ▸ ht).1
          have := hall k0 (List.mem_cons_self k0 ktl)
          rw [hk0, hc] at this
          exact absurd this (by simp)
      · exact ih hinf
    · rw [List.dropWhile_cons, if_neg hc]
      exact h

/-- A nonempty keyword of non-whitespace characters survives `pyStrip`. -/
theorem kw_in_pyStrip {kw l : List Char} (hne : kw ≠ [])
    (hall : ∀ c ∈ kw, isPySpace c = false) (h : kw <:+: l) : kw <:+: pyStrip l := by
  unfold pyStrip
  have h1 : kw <:+: l.dropWhile isPySpace := kw_in_dropWhile hne hall h
  have h2 : kw.reverse <:+: (l.dropWhile isPySpace).reverse := List.reverse_infix.mpr h1
  have h3 : kw.reverse <:+: (l.dropWhile isPySpace).reverse.dropWhile isPySpace := by
    refine kw_in_dropWhile (by simpa using hne) ?_ h2
    intro c hc
    exact hall c (List.mem_reverse.mp hc)
  have h4 := List.reverse_infix.mpr h3
  simpa using h4

/-- C1: `validate_sql_safety s` is true exactly when the upper-cased, trimmed
form of `s` starts with `SELECT` or `WITH` and contains no deny-listed keyword
as a raw substring; in particular any string containing a deny-listed keyword
case-insensitively as a substring, at any position, is rejected. -/
theorem c1_validate_iff (s : List Char) :
    (validate_sql_safety s = true ↔
      (("SELECT".data <+: pyStrip (pyUpper s)) ∨ ("WITH".data <+: pyStrip (pyUpper s))) ∧
        ∀ kw ∈ dangerous_keywords, ¬ kw <:+: pyStrip (pyUpper s)) ∧
    (∀ kw ∈ dangerous_keywords, kw <:+: pyUpper s → validate_sql_safety s = false) := by
  constructor
  · unfold validate_sql_safety
    split_ifs with h1 h2
    · simp only [Bool.false_eq_true, false_iff]
      rw [List.any_eq_true] at h1
      obtain ⟨kw, hmem, hdec⟩ := h1
      rintro ⟨-, hall⟩
      exact hall kw hmem (of_decide_eq_true hdec)
    · simp only [Bool.false_eq_true, false_iff]
      rw [Bool.and_eq_true, Bool.not_eq_true', Bool.not_eq_true'] at h2
      rintro ⟨hpre | hpre, -⟩
      · exact absurd (List.isPrefixOf_iff_prefix.mpr hpre) (by rw [h2.1]; simp)
      · exact absurd (List.isPrefixOf_iff_prefix.mpr hpre) (by rw [h2.2]; simp)
    · simp only [true_iff]
      refine ⟨?_, fun kw hmem hinf => h1 (List.any_eq_true.mpr ⟨kw, hmem, decide_eq_true hinf⟩)⟩
      cases hS : "SELECT".data.isPrefixOf (pyStrip (pyUpper s)) with
      | true => exact Or.inl (List.isPrefixOf_iff_prefix.mp hS)
      | false =>
        cases hW : "WITH".data.isPrefixOf (pyStrip (pyUpper s)) with
        | true => exact Or.inr (List.isPrefixOf_iff_prefix.mp hW)
        | false => exact absurd (by rw [hS, hW]; rfl) h2
  · intro kw hmem hinf
    have hstrip : kw <:+: pyStrip (pyUpper s) := by
      have hprops : kw ≠ [] ∧ ∀ c ∈ kw, isPySpace c = false := by
        simp only [dangerous_keywords, List.mem_cons, List.not_mem_nil, or_false] at hmem
        rcases hmem with rfl | rfl | rfl | rfl | rfl | rfl | rfl | rfl | rfl | rfl | rfl <;>
          exact ⟨by decide, by decide⟩
      exact kw_in_pyStrip hprops.1 hprops.2 hinf
    unfold validate_sql_safety
    rw [if_pos]
    exact List.any_eq_true.mpr ⟨kw, hmem, decide_eq_true hstrip⟩

/-- C1 witness: the spec example — a harmless literal containing `DROP` as a
substring is rejected. -/
theorem c1_validate_iff_witness :
    ("DROP".data ∈ dangerous_keywords ∧
      "DROP".data <:+: pyUpper "SELECT * FROM t WHERE name = DROPBOX".data) ∧
    validate_sql_safety "SELECT * FROM t WHERE name = DROPBOX".data = false :=
  ⟨⟨by decide, by decide⟩,
   (c1_validate_iff ("SELECT * FROM t WHERE name = DROPBOX".data)).2 "DROP".data
     (by decide) (by decide)⟩

/-! ## C2: rejection happens before, and distinctly from, execution -/

/-- A list with a given prefix differs from any list whose corresponding
prefix differs. -/
theorem append_ne_of_take (p c q : List Char) (h : q.take p.length ≠ p) : p ++ c ≠ q := by
  intro he
  exact h (by rw [← he, List.take_left])

/-- C2: an invalid statement makes `execute_safe_query` fail with the
rejection error and hand nothing to the store, and no error produced by the
execution path (`execute_query`) ever equals the rejection error. -/
theorem c2_rejected_query (store : List Char → StoreResult) (sql : List Char)
    (h : validate_sql_safety sql = false) :
    execute_safe_query store sql = (.error rejectedError, []) ∧
      ∀ (store2 : List Char → StoreResult) (sql2 : List Char) (e : DatabaseError),
        execute_query store2 sql2 = .error e → e ≠ rejectedError := by
  constructor
  · simp [execute_safe_query, h]
  · intro store2 sql2 e he
    unfold execute_query at he
    cases hs : store2 sql2 <;> rw [hs] at he
    · simp at he
    · simp only [Except.error.injEq] at he
      subst he
      intro heq
      exact append_ne_of_take _ _ _ (by decide) (congrArg DatabaseError.msg heq)
    · simp only [Except.error.injEq] at he
      subst he
      intro heq
      exact append_ne_of_take _ _ _ (by decide) (congrArg DatabaseError.msg heq)

/-- C2 witness: a `DROP` statement is rejected without reaching the store. -/
theorem c2_rejected_query_witness :
    validate_sql_safety "DROP TABLE t".data = false ∧
      execute_safe_query (fun _ => .rows []) "DROP TABLE t".data = (.error rejectedError, []) :=
  ⟨by decide, (c2_rejected_query (fun _ => .rows []) ("DROP TABLE t".data) (by decide)).1⟩

/-! ## C3: FIFO trim law of the session store -/

/-- The session-list effect of a sequence of `add_message` calls for one
session id, each item supplying the role, content, metadata and call time of
one append. -/
def addSeq (session_id : List Char) (items : List Msg) (mm : MemoryManager) : MemoryManager :=
  items.foldl (fun cur m => cur.add_message session_id m.role m.content m.metadata m.timestamp) mm

/-- Looking up the key just written by `dinsert`. -/
theorem dlookup_dinsert_self (k : List Char) (v : α) (d : List (List Char × α)) :
    dlookup k (dinsert k v d) = some v := by
  induction d with
  | nil => simp [dinsert, dlookup]
  | cons p rest ih =>
    obtain ⟨k2, v2⟩ := p
    by_cases hk : k2 = k <;> simp [dinsert, dlookup, hk, ih]

/-- `add_message` stores the trim-appended list under the session id. -/
theorem dlookup_add_message (mm : MemoryManager) (sid role content : List Char)
    (md : Metadata) (now : Int) :
    dlookup sid (mm.add_message sid role content md now).sessions
      = some (trimAppend mm.max_messages ((dlookup sid mm.sessions).getD [])
          ⟨role, content, now, md⟩) :=
  dlookup_dinsert_self sid _ mm.sessions

/-- A sequence of appends folds `trimAppend` over the initial session list. -/
theorem addSeq_lookup (sid : List Char) (items : List Msg) :
    ∀ mm : MemoryManager, (addSeq sid items mm).max_messages = mm.max_messages ∧
      dlookup sid (addSeq sid items mm).sessions =
        (if items.isEmpty then dlookup sid mm.sessions
         else some (items.foldl (trimAppend mm.max_messages)
            ((dlookup sid mm.sessions).getD []))) := by
  induction items with
  | nil => intro mm; simp [addSeq]
  | cons m rest ih =>
    intro mm
    have hstep : addSeq sid (m :: rest) mm
        = addSeq sid rest (mm.add_message sid m.role m.content m.metadata m.timestamp) := rfl
    rw [hstep]
    obtain ⟨hmax, hlook⟩ := ih (mm.add_message sid m.role m.content m.metadata m.timestamp)
    refine ⟨hmax, ?_⟩
    rw [hlook, dlookup_add_message]
    cases rest with
    | nil => rfl
    | cons m2 rest2 => rfl

/-- The pure FIFO-trim law: folding `trimAppend` with a positive bound keeps
exactly the most recent `maxM` items, in order. -/
theorem foldl_trimAppend (maxM : Nat) (hpos : 0 < maxM) (items : List Msg) :
    items.foldl (trimAppend maxM) [] = items.drop (items.length - maxM) := by
  induction items using List.reverseRecOn with
  | nil => simp
  | append_singleton items m ih =>
    rw [List.foldl_append, List.foldl_cons, List.foldl_nil, ih]
    have hlm : (items ++ [m]).length = items.length + 1 := by
      rw [List.length_append, List.length_cons, List.length_nil]
    rcases Nat.lt_or_ge items.length maxM with hlt | hge
    · have e1 : items.length - maxM = 0 := by omega
      have e2 : (items ++ [m]).length - maxM = 0 := by rw [hlm]; omega
      rw [e1, List.drop_zero, e2, List.drop_zero]
      simp only [trimAppend]
      rw [if_neg (by rw [hlm]; omega)]
    · have hd : (items.drop (items.length - maxM)).length = maxM := by
        rw [List.length_drop]
        omega
      have hc : maxM < (items.drop (items.length - maxM) ++ [m]).length := by
        rw [List.length_append, hd, List.length_cons, List.length_nil]
        omega
      simp only [trimAppend]
      rw [if_pos hc]
      simp only [pySliceLast]
      rw [if_neg (by omega)]
      have e4 : (items.drop (items.length - maxM) ++ [m]).length - maxM = 1 := by
        rw [List.length_append, hd, List.length_cons, List.length_nil]
        omega
      rw [e4, List.drop_append_of_le_length (by rw [hd]; omega), List.drop_drop, hlm,
        List.drop_append_of_le_length (by omega)]
      congr 2
      omega

/-- C3: starting from an unseen session id, after any nonempty sequence of
appends the stored list is exactly the most recent `min(k, max_messages)`
appended messages in insertion order, and never exceeds the bound (for any
positive bound, default 20). -/
theorem c3_fifo_trim (mm : MemoryManager) (session_id : List Char) (items : List Msg)
    (hpos : 0 < mm.max_messages) (habs : dlookup session_id mm.sessions = none)
    (hne : items ≠ []) :
    dlookup session_id (addSeq session_id items mm).sessions
        = some (items.drop (items.length - mm.max_messages)) ∧
      (items.drop (items.length - mm.max_messages)).length ≤ mm.max_messages := by
  obtain ⟨-, hlook⟩ := addSeq_lookup session_id items mm
  have hie : items.isEmpty = false := by simp [List.isEmpty_iff, hne]
  rw [hlook, hie, if_neg (by simp), habs, Option.getD_none,
    foldl_trimAppend mm.max_messages hpos]
  refine ⟨rfl, ?_⟩
  rw [List.length_drop]
  omega

/-- A sample message for concrete witnesses. -/
def mkUserMsg (content : List Char) : Msg := ⟨"user".data, content, 0, emptyMeta⟩

/-- C3 witness: three appends against a bound of two keep the last two
messages in order. -/
theorem c3_fifo_trim_witness :
    (0 < 2 ∧ dlookup "s".data (⟨[], [], 2⟩ : MemoryManager).sessions = none ∧
      [mkUserMsg "a".data, mkUserMsg "b".data, mkUserMsg "c".data] ≠ []) ∧
    dlookup "s".data (addSeq "s".data
        [mkUserMsg "a".data, mkUserMsg "b".data, mkUserMsg "c".data]
        (⟨[], [], 2⟩ : MemoryManager)).sessions
      = some [mkUserMsg "b".data, mkUserMsg "c".data] :=
  ⟨⟨by decide, rfl, by decide⟩, by
    have h := (c3_fifo_trim (⟨[], [], 2⟩ : MemoryManager) "s".data
      [mkUserMsg "a".data, mkUserMsg "b".data, mkUserMsg "c".data]
      (by decide) rfl (by decide)).1
    simpa using h⟩

/-! ## C4: one user append then one assistant append, on every path -/

/-- C4: whatever the model oracle, the store oracle and the formatting oracle
do — direct reply, successful query, rejected or failed query, unknown
function, or an exception from the model call — one `process_message` call
leaves the store equal to the input store plus exactly one `user` append
(the utterance, no metadata) followed by exactly one `assistant` append. -/
theorem c4_turn_appends (first_call : FirstCall) (store : List Char → StoreResult)
    (format_call : FormatCall) (mm : MemoryManager) (user_message session_id : List Char)
    (now : Int) :
    ∃ c md, (process_message first_call store format_call mm user_message session_id now).2
      = (mm.add_message session_id "user".data user_message emptyMeta now).add_message
          session_id "assistant".data c md now := by
  cases first_call with
  | raises e => exact ⟨_, _, rfl⟩
  | content c => exact ⟨_, _, rfl⟩
  | toolCall name query_arg message_arg =>
    show ∃ c md, (handle_function_call store format_call _ session_id name
        query_arg message_arg now).2 = _
    unfold handle_function_call
    by_cases h1 : name = "execute_sql".data
    · rw [if_pos h1]
      unfold execute_sql_function
      cases hsr : (execute_safe_query store (query_arg.getD [])).1 with
      | ok rows => exact ⟨_, _, rfl⟩
      | error e => exact ⟨_, _, rfl⟩
    · rw [if_neg h1]
      by_cases h2 : name = "respond_directly".data
      · rw [if_pos h2]
        exact ⟨_, _, rfl⟩
      · rw [if_neg h2]
        exact ⟨_, _, rfl⟩

/-! ## C5: the database-error response echoes the cause verbatim -/

/-- C5 counterexample: with a store failing with cause `boom` on a validated
query, the response handed back to the caller contains `boom` verbatim — the
cause is not confined to the logs. -/
theorem c5_counterexample :
    "boom".data <:+:
      (process_message (.toolCall "execute_sql".data (some "SELECT 1".data) none)
        (fun _ => .pgError "boom".data) .raises (⟨[], [], 20⟩ : MemoryManager)
        "hi".data "s".data 0).1.response := by decide

/-- C5 (amended): on an `ExecutionError` during a validated query, the
response returned to the caller is the fixed prefix followed by the whole
`DatabaseError` text, which itself embeds the store error cause verbatim. -/
theorem c5_database_error_response (store : List Char → StoreResult)
    (format_call : FormatCall) (mm : MemoryManager)
    (user_message session_id sql cause : List Char) (now : Int)
    (hval : validate_sql_safety sql = true) (hstore : store sql = .pgError cause) :
    (process_message (.toolCall "execute_sql".data (some sql) none) store format_call
        mm user_message session_id now).1.response
      = "I encountered a database error: Database query failed: ".data ++ cause ∧
    (process_message (.toolCall "execute_sql".data (some sql) none) store format_call
        mm user_message session_id now).1.rtype = "database_error".data := by
  have hrun : (execute_safe_query store sql).1
      = .error ⟨"Database query failed: ".data ++ cause⟩ := by
    simp [execute_safe_query, hval, execute_query, hstore]
  have hout : (process_message (.toolCall "execute_sql".data (some sql) none) store format_call
      mm user_message session_id now)
      = execute_sql_function store format_call
          (add_user_message mm session_id user_message now) session_id (some sql) now := rfl
  rw [hout]
  unfold execute_sql_function
  simp only [Option.getD_some]
  rw [hrun]
  refine ⟨?_, rfl⟩
  show "I encountered a database error: ".data ++ ("Database query failed: ".data ++ cause) = _
  rw [← List.append_assoc]
  congr 1

/-- C5 witness for the amended claim, at the `boom` store. -/
theorem c5_database_error_response_witness :
    validate_sql_safety "SELECT 1".data = true ∧
      (process_message (.toolCall "execute_sql".data (some "SELECT 1".data) none)
        (fun _ => .pgError "boom".data) .raises (⟨[], [], 20⟩ : MemoryManager)
        "hi".data "s".data 0).1.response
      = "I encountered a database error: Database query failed: ".data ++ "boom".data :=
  ⟨by decide,
   (c5_database_error_response (fun _ => .pgError "boom".data) .raises
      (⟨[], [], 20⟩ : MemoryManager) "hi".data "s".data "SELECT 1".data "boom".data 0
      (by decide) rfl).1⟩

/-! ## C6: round trip of query metadata through the store -/

/-- `trimAppend` always keeps the message just appended as the last one. -/
theorem trimAppend_concat (maxM : Nat) (l : List Msg) (m : Msg) :
    ∃ ys, trimAppend maxM l m = ys ++ [m] := by
  unfold trimAppend pySliceLast
  split_ifs with h1 h2
  · exact ⟨l, rfl⟩
  · refine ⟨l.drop ((l ++ [m]).length - maxM), ?_⟩
    have hle : (l ++ [m]).length - maxM ≤ l.length := by
      rw [List.length_append, List.length_cons, List.length_nil]
      omega
    rw [List.drop_append_of_le_length hle]
  · exact ⟨l, rfl⟩

/-- C6: appending a user message and then an assistant message carrying
`sql_query = Q` and `sql_results = R` makes `get_last_sql_query` and
`get_last_sql_results` return exactly `Q` and `R`, whatever was stored
before. -/
theorem c6_round_trip (mm : MemoryManager) (session_id userC asstC : List Char)
    (Q : List Char) (R : List Row) (now1 now2 : Int) (hQ : Q ≠ []) (hR : R ≠ []) :
    ((add_assistant_message (add_user_message mm session_id userC now1)
        session_id asstC (some Q) (some R) now2).get_last_sql_query session_id = some Q) ∧
    ((add_assistant_message (add_user_message mm session_id userC now1)
        session_id asstC (some Q) (some R) now2).get_last_sql_results session_id = some R) := by
  have hQe : Q.isEmpty = false := by simp [List.isEmpty_iff, hQ]
  have hRe : R.isEmpty = false := by simp [List.isEmpty_iff, hR]
  have hmeta : mkMeta (some Q) (some R) = ⟨some Q, some R⟩ := by
    simp [mkMeta, truthyStr, truthyRows, hQe, hRe]
  set mm1 := add_user_message mm session_id userC now1 with hmm1
  have hlook := dlookup_add_message mm1 session_id "assistant".data asstC
    (mkMeta (some Q) (some R)) now2
  obtain ⟨ys, hys⟩ := trimAppend_concat mm1.max_messages
    ((dlookup session_id mm1.sessions).getD [])
    ⟨"assistant".data, asstC, now2, mkMeta (some Q) (some R)⟩
  rw [hys] at hlook
  constructor
  · unfold MemoryManager.get_last_sql_query
    rw [show add_assistant_message mm1 session_id asstC (some Q) (some R) now2
        = mm1.add_message session_id "assistant".data asstC (mkMeta (some Q) (some R)) now2
      from rfl, hlook]
    show lastQueryScan
        ((ys ++ [(⟨"assistant".data, asstC, now2, mkMeta (some Q) (some R)⟩ : Msg)]).reverse)
        = some Q
    rw [List.reverse_append]
    show lastQueryScan (⟨"assistant".data, asstC, now2, mkMeta (some Q) (some R)⟩ :: ys.reverse)
        = some Q
    unfold lastQueryScan
    rw [show (⟨"assistant".data, asstC, now2, mkMeta (some Q) (some R)⟩ : Msg).metadata.sql_query
        = some Q from by rw [hmeta]]
    simp [hQe]
  · unfold MemoryManager.get_last_sql_results
    rw [show add_assistant_message mm1 session_id asstC (some Q) (some R) now2
        = mm1.add_message session_id "assistant".data asstC (mkMeta (some Q) (some R)) now2
      from rfl, hlook]
    show lastResultsScan
        ((ys ++ [(⟨"assistant".data, asstC, now2, mkMeta (some Q) (some R)⟩ : Msg)]).reverse)
        = some R
    rw [List.reverse_append]
    show lastResultsScan (⟨"assistant".data, asstC, now2, mkMeta (some Q) (some R)⟩ :: ys.reverse)
        = some R
    unfold lastResultsScan
    rw [show (⟨"assistant".data, asstC, now2, mkMeta (some Q) (some R)⟩ : Msg).metadata.sql_results
        = some R from by rw [hmeta]]
    simp [hRe]

/-- C6 witness at a concrete session and row set. -/
theorem c6_round_trip_witness :
    ("SELECT 1".data ≠ ([] : List Char) ∧ [(⟨[("a".data, "1".data)]⟩ : Row)] ≠ []) ∧
    ((add_assistant_message (add_user_message (⟨[], [], 20⟩ : MemoryManager)
        "s".data "hi".data 0) "s".data "done".data (some "SELECT 1".data)
        (some [(⟨[("a".data, "1".data)]⟩ : Row)]) 1).get_last_sql_query "s".data
      = some "SELECT 1".data) :=
  ⟨⟨by decide, by decide⟩,
   (c6_round_trip (⟨[], [], 20⟩ : MemoryManager) "s".data "hi".data "done".data
      "SELECT 1".data [(⟨[("a".data, "1".data)]⟩ : Row)] 0 1 (by decide) (by decide)).1⟩

/-! ## C7: the respond_directly path -/

/-- C7 counterexample: the `respond_directly` function call returns outcome
type `conversational`, not `direct`. -/
theorem c7_counterexample :
    (process_message (.toolCall "respond_directly".data none (some "hello there".data))
        (fun _ => .rows []) (.ok none) (⟨[], [], 20⟩ : MemoryManager)
        "hi".data "s".data 0).1.rtype = "conversational".data ∧
      "conversational".data ≠ "direct".data :=
  ⟨rfl, by decide⟩

/-- C7 (amended): when the model calls `respond_directly` with message `t`,
the orchestrator appends the assistant message with empty metadata and
returns `t` with outcome type `conversational`. -/
theorem c7_respond_directly (store : List Char → StoreResult) (format_call : FormatCall)
    (mm : MemoryManager) (user_message session_id t : List Char)
    (query_arg : Option (List Char)) (now : Int) :
    (process_message (.toolCall "respond_directly".data query_arg (some t)) store format_call
        mm user_message session_id now).1.response = t ∧
    (process_message (.toolCall "respond_directly".data query_arg (some t)) store format_call
        mm user_message session_id now).1.rtype = "conversational".data ∧
    (process_message (.toolCall "respond_directly".data query_arg (some t)) store format_call
        mm user_message session_id now).2
      = (add_user_message mm session_id user_message now).add_message session_id
          "assistant".data t emptyMeta now :=
  ⟨rfl, rfl, rfl⟩

/-! ## C8: the sweep after a clear -/

/-- A store in which session `a` received one message at time `0` and was then
removed via `clear_session` — which leaves its `session_timestamps` entry
behind. -/
def mmAfterClear : MemoryManager :=
  ((⟨[], [], 20⟩ : MemoryManager).add_message "a".data "user".data "hi".data emptyMeta 0
    ).clear_session "a".data

/-- C8 (code bug): after `clear_session`, the timestamp entry survives, and a
sweep whose cutoff passes that stale timestamp crashes with `KeyError` instead
of completing: `del self.sessions[session_id]` finds no such key. -/
theorem c8_cleanup_keyerror_after_clear :
    mmAfterClear.sessions = [] ∧
      mmAfterClear.session_timestamps = [("a".data, 0)] ∧
      mmAfterClear.cleanup_old_sessions 24 100000 = .error ("KeyError: a".data) :=
  ⟨rfl, rfl, rfl⟩

/-! ## C9: history with a supplied limit -/

/-- A store in which session `s` holds exactly one message. -/
def mmOneMsg : MemoryManager :=
  (⟨[], [], 20⟩ : MemoryManager).add_message "s".data "user".data "hi".data emptyMeta 0

/-- C9 counterexample: a supplied limit of `0` is falsy, so the history call
returns all stored messages instead of the most recent zero. -/
theorem c9_counterexample :
    mmOneMsg.get_conversation_history "s".data (some 0) = [("user".data, "hi".data)] ∧
      [("user".data, "hi".data)] ≠ ([] : List (List Char × List Char)) :=
  ⟨rfl, by decide⟩

/-- C9 (amended): for a stored session, a supplied limit of at least one
returns exactly the most recent `limit` messages reduced to `(role, content)`
in insertion order; an omitted limit — and likewise the falsy limit `0` —
returns all of them, bounded by `max_messages` whenever the stored list is. -/
theorem c9_history (mm : MemoryManager) (session_id : List Char) (msgs : List Msg)
    (h : dlookup session_id mm.sessions = some msgs) :
    (∀ k : Nat, 1 ≤ k → mm.get_conversation_history session_id (some k)
        = (msgs.drop (msgs.length - k)).map (fun (msg : Msg) => (msg.role, msg.content))) ∧
    mm.get_conversation_history session_id none
        = msgs.map (fun (msg : Msg) => (msg.role, msg.content)) ∧
    mm.get_conversation_history session_id (some 0)
        = msgs.map (fun (msg : Msg) => (msg.role, msg.content)) ∧
    (msgs.length ≤ mm.max_messages →
      (mm.get_conversation_history session_id none).length ≤ mm.max_messages) := by
  unfold MemoryManager.get_conversation_history
  rw [h]
  refine ⟨?_, rfl, rfl, ?_⟩
  · intro k hk
    show (if k = 0 then msgs else pySliceLast k msgs).map _ = _
    rw [if_neg (by omega)]
    unfold pySliceLast
    rw [if_neg (by omega)]
  · intro hlen
    show (msgs.map _).length ≤ _
    rw [List.length_map]
    exact hlen

/-- C9 witness: two stored messages, limit one, returns the most recent. -/
theorem c9_history_witness :
    (dlookup "s".data (mmOneMsg.add_message "s".data "user".data "yo".data emptyMeta 1).sessions
      = some [⟨"user".data, "hi".data, 0, emptyMeta⟩, ⟨"user".data, "yo".data, 1, emptyMeta⟩]
      ∧ (1 : Nat) ≤ 1) ∧
    (mmOneMsg.add_message "s".data "user".data "yo".data emptyMeta 1).get_conversation_history
        "s".data (some 1) = [("user".data, "yo".data)] :=
  ⟨⟨rfl, by decide⟩, by
    have h := ((c9_history (mmOneMsg.add_message "s".data "user".data "yo".data emptyMeta 1)
      "s".data [⟨"user".data, "hi".data, 0, emptyMeta⟩, ⟨"user".data, "yo".data, 1, emptyMeta⟩]
      rfl).1) 1 (by decide)
    simpa using h⟩

/-! ## C10: no empty query or result metadata is ever stored or returned -/

/-- `lastQueryScan` never returns the empty string: the truthiness check skips
falsy values. -/
theorem lastQueryScan_ne_empty :
    ∀ (l : List Msg) (q : List Char), lastQueryScan l = some q → q ≠ [] := by
  intro l
  induction l with
  | nil => intro q h; simp [lastQueryScan] at h
  | cons m rest ih =>
    intro q h
    unfold lastQueryScan at h
    cases hm : m.metadata.sql_query with
    | none => rw [hm] at h; exact ih q h
    | some q0 =>
      rw [hm] at h
      have h2 : (if q0.isEmpty then lastQueryScan rest else some q0) = some q := h
      cases hq0 : q0.isEmpty with
      | true => rw [hq0] at h2; simp at h2; exact ih q h2
      | false =>
        rw [hq0] at h2
        simp at h2
        subst h2
        intro hq
        rw [hq] at hq0
        simp at hq0

/-- `lastResultsScan` never returns the empty row list. -/
theorem lastResultsScan_ne_empty :
    ∀ (l : List Msg) (rs : List Row), lastResultsScan l = some rs → rs ≠ [] := by
  intro l
  induction l with
  | nil => intro rs h; simp [lastResultsScan] at h
  | cons m rest ih =>
    intro rs h
    unfold lastResultsScan at h
    cases hm : m.metadata.sql_results with
    | none => rw [hm] at h; exact ih rs h
    | some rs0 =>
      rw [hm] at h
      have h2 : (if rs0.isEmpty then lastResultsScan rest else some rs0) = some rs := h
      cases hr0 : rs0.isEmpty with
      | true => rw [hr0] at h2; simp at h2; exact ih rs h2
      | false =>
        rw [hr0] at h2
        simp at h2
        subst h2
        intro hr
        rw [hr] at hr0
        simp at hr0

/-- C10: an assistant append stores the `mkMeta` dict, which drops an empty
query string and an empty results list; consequently `get_last_sql_query`
never returns the empty string and `get_last_sql_results` never returns an
empty sequence, in any store state. -/
theorem c10_no_empty_metadata :
    (∀ (mm : MemoryManager) (session_id content : List Char)
        (q : Option (List Char)) (r : Option (List Row)) (now : Int),
      add_assistant_message mm session_id content q r now
        = mm.add_message session_id "assistant".data content (mkMeta q r) now) ∧
    (∀ r : Option (List Row), (mkMeta (some []) r).sql_query = none) ∧
    (∀ q : Option (List Char), (mkMeta q (some ([] : List Row))).sql_results = none) ∧
    (∀ (mm : MemoryManager) (session_id : List Char) (q : List Char),
      mm.get_last_sql_query session_id = some q → q ≠ []) ∧
    (∀ (mm : MemoryManager) (session_id : List Char) (rs : List Row),
      mm.get_last_sql_results session_id = some rs → rs ≠ []) := by
  refine ⟨fun _ _ _ _ _ _ => rfl, fun r => rfl, fun q => rfl, ?_, ?_⟩
  · intro mm session_id q h
    unfold MemoryManager.get_last_sql_query at h
    cases hd : dlookup session_id mm.sessions with
    | none => rw [hd] at h; simp at h
    | some msgs =>
      rw [hd] at h
      exact lastQueryScan_ne_empty msgs.reverse q h
  · intro mm session_id rs h
    unfold MemoryManager.get_last_sql_results at h
    cases hd : dlookup session_id mm.sessions with
    | none => rw [hd] at h; simp at h
    | some msgs =>
      rw [hd] at h
      exact lastResultsScan_ne_empty msgs.reverse rs h

/-- A store holding one assistant message with a nonempty stored query. -/
def mmWithQuery : MemoryManager :=
  add_assistant_message (⟨[], [], 20⟩ : MemoryManager) "s".data "done".data
    (some "SELECT x".data) none 0

/-- C10 witness: a concrete state whose last query is nonempty. -/
theorem c10_no_empty_metadata_witness :
    mmWithQuery.get_last_sql_query "s".data = some "SELECT x".data ∧
      "SELECT x".data ≠ ([] : List Char) :=
  ⟨rfl, c10_no_empty_metadata.2.2.2.1 mmWithQuery "s".data "SELECT x".data rfl⟩

end ChatbotSentiment
